import Mathlib

/-!
Verification of the caption layout and rendering core of the meme-generator
service: a shallow embedding of `app/utils/image_utils.py`
(`wrap_text`) and `app/services/meme_service.py` (`MemeService.generate_meme`,
`MemeService._add_text_to_image`), together with the style defaults of
`app/config/settings.py`.

Modelling conventions:
* A Pillow font is abstracted to what the code observes through
  `draw.textbbox((0, 0), s, font=font)`: the measured pixel width of a string
  (`bbox[2] - bbox[0]`, a natural number) and the measured line height of the
  probe string "A" (`bbox[3]`).
* Python float expressions `int(w * 0.9)`, `int(h * 0.05)` and
  `int(h * 0.95 - total)` are idealized as exact rational arithmetic followed
  by truncation toward zero (`Int.tdiv`); Python floor division `//` is
  `Int.fdiv`.
* The filesystem, timestamps and uuids are abstracted into parameters: the
  template store is a function `String → Option (Option Img)` (`none` = no
  template file, `some none` = file found but fails to decode, `some (some img)`
  = decoded image), and the unique output filename generator is a function
  `String → String`.
* Saving the image is modelled as always succeeding; drawing is modelled by the
  list of `draw.text` calls the code issues, in order.
-/

namespace MemeGen

/-- A font resource, abstracted to what the code observes via `draw.textbbox`:
`width s` is the measured pixel width of `s` and `heightA` is the measured
line height of the probe string "A". -/
structure Font where
  width : String → Nat
  heightA : Nat

/-- Helper for `splitWords`: scans the character list, `acc` holding the
characters of the current word in reverse, mirroring Python `str.split()`
(split on runs of whitespace, dropping empty pieces). -/
def splitWordsAux : List Char → List Char → List String
  | [], [] => []
  | [], acc => [String.mk acc.reverse]
  | c :: cs, acc =>
    if c.isWhitespace then
      if acc.isEmpty then splitWordsAux cs []
      else String.mk acc.reverse :: splitWordsAux cs []
    else splitWordsAux cs (c :: acc)

/-- Python `text.split()`: split on whitespace, no empty pieces. -/
def splitWords (s : String) : List String :=
  splitWordsAux s.data []

/-- Python `" ".join(ws)`. -/
def joinWords : List String → String
  | [] => ""
  | [w] => w
  | w :: v :: ws => w ++ " " ++ joinWords (v :: ws)

/-- Python `text.upper()` (ASCII case mapping, as used by the captions). -/
def upperStr (s : String) : String :=
  String.mk (s.data.map Char.toUpper)

/-- The accumulating loop of `wrap_text` (image_utils.py lines 119-134).
`lines` holds the closed lines and `current_line` the open one, both as word
lists; Python appends `" ".join(current_line)` (resp. the bare `word`) when it
closes a line, which is `joinWords` of the corresponding word list, applied
once at the end in `wrap_text` below. The candidate line measured against the
budget is `joinWords (current_line ++ [word])`, exactly Python's `test_line`. -/
def wrapAux (measure : String → Nat) (max_width : Nat) :
    List String → List (List String) → List String → List (List String)
  | [], lines, current_line =>
    if current_line.isEmpty then lines else lines ++ [current_line]
  | word :: ws, lines, current_line =>
    if measure (joinWords (current_line ++ [word])) ≤ max_width then
      wrapAux measure max_width ws lines (current_line ++ [word])
    else if current_line.isEmpty then
      wrapAux measure max_width ws (lines ++ [[word]]) []
    else
      wrapAux measure max_width ws (lines ++ [current_line]) [word]

/-- The lines produced by `wrap_text` on a word sequence, as word lists. -/
def wrapLines (measure : String → Nat) (ws : List String) (max_width : Nat) :
    List (List String) :=
  wrapAux measure max_width ws [] []

/-- `wrap_text(text, font, max_width)` of image_utils.py lines 99-136:
greedy word wrap of `text` against the pixel budget `max_width`, the font
abstracted to its width measure. -/
def wrap_text (measure : String → Nat) (text : String) (max_width : Nat) :
    List String :=
  (wrapLines measure (splitWords text) max_width).map joinWords

/-- `max_width = int(img_width * 0.9)` of meme_service.py line 148
(exact arithmetic: `int(w * 0.9) = ⌊9w/10⌋` for natural `w`). -/
def maxWidthOf (img_width : Nat) : Nat :=
  9 * img_width / 10

/-- The starting y coordinate of meme_service.py lines 157-161:
`int(img_height * 0.05)` for the top slot, `int(img_height * 0.95 -
total_height)` otherwise, Python `int()` truncating toward zero
(`0.05 = 5/100`, `0.95 = 19/20` idealized as exact rationals). -/
def y_start (position : String) (img_height total_height : Nat) : Int :=
  if position = "top" then
    Int.tdiv (5 * (img_height : Int)) 100
  else
    Int.tdiv (19 * (img_height : Int) - 20 * (total_height : Int)) 20

/-- The per-line x coordinate of meme_service.py line 168:
`x = (img_width - text_width) // 2` (Python floor division on ints). -/
def centerX (img_width text_width : Nat) : Int :=
  Int.fdiv ((img_width : Int) - (text_width : Int)) 2

/-- The layout computed by `_add_text_to_image` (meme_service.py lines
144-169) before drawing: the wrapped lines, the total block height, the
starting y, and the centered x of each line. -/
structure TextLayout where
  lines : List String
  total_height : Nat
  yStart : Int
  xs : List Int
deriving DecidableEq

/-- The layout part of `_add_text_to_image`: wrap the upper-cased text against
90% of the image width, measure the block height as `line_height * len(lines)`
with `line_height` the bbox height of "A", and compute the slot y start and
each line's centered x. -/
def textLayout (font : Font) (image_size : Nat × Nat) (text : String)
    (position : String) : TextLayout :=
  let lines := wrap_text font.width (upperStr text) (maxWidthOf image_size.1)
  let total_height := font.heightA * lines.length
  { lines := lines
    total_height := total_height
    yStart := y_start position image_size.2 total_height
    xs := lines.map fun line => centerX image_size.1 (font.width line) }

/-- One `draw.text` call issued by `_add_text_to_image`
(meme_service.py lines 172-179). -/
structure DrawCall where
  x : Int
  y : Int
  line : String
  fill : String
  stroke_width : Nat
  stroke_fill : String
deriving DecidableEq

/-- `_add_text_to_image` (meme_service.py lines 133-179), modelled by the list
of `draw.text` calls it issues, in order: line `i` at
`(centerX, y_start + i * line_height)` with the given fill, stroke width and
stroke fill. -/
def add_text_to_image (font : Font) (image_size : Nat × Nat) (text : String)
    (font_color stroke_color : String) (stroke_width : Nat)
    (position : String) : List DrawCall :=
  let L := textLayout font image_size text position
  L.lines.enum.map fun p =>
    { x := centerX image_size.1 (font.width p.2)
      y := L.yStart + (p.1 : Int) * (font.heightA : Int)
      line := p.2
      fill := font_color
      stroke_width := stroke_width
      stroke_fill := stroke_color }

/-- The font-related defaults of `app/config/settings.py` lines 26-30. -/
structure Settings where
  default_font_size : Nat := 40
  default_font_color : String := "white"
  default_stroke_color : String := "black"
  default_stroke_width : Nat := 2

/-- The global settings instance (all defaults). -/
def settings : Settings := {}

/-- Python `v or d` for an optional int argument (`None` and `0` are falsy). -/
def pyOrNat (v : Option Nat) (d : Nat) : Nat :=
  match v with
  | none => d
  | some n => if n = 0 then d else n

/-- Python `v or d` for an optional string argument (`None` and `""` are
falsy). -/
def pyOrStr (v : Option String) (d : String) : String :=
  match v with
  | none => d
  | some s => if s = "" then d else s

/-- The effective style parameters. -/
structure Style where
  font_size : Nat
  font_color : String
  stroke_color : String
  stroke_width : Nat
deriving DecidableEq

/-- The defaulting of meme_service.py lines 67-70: each style parameter is
`supplied or settings.default`. -/
def effectiveStyle (font_size : Option Nat) (font_color stroke_color : Option String)
    (stroke_width : Option Nat) : Style :=
  { font_size := pyOrNat font_size settings.default_font_size
    font_color := pyOrStr font_color settings.default_font_color
    stroke_color := pyOrStr stroke_color settings.default_stroke_color
    stroke_width := pyOrNat stroke_width settings.default_stroke_width }

/-- A decoded template image: its pixel dimensions. -/
structure Img where
  width : Nat
  height : Nat
deriving DecidableEq

/-- The message of meme_service.py line 75, `Template '<name>' not found`
(the quote character written via its code point). -/
def notFoundMessage (template_name : String) : String :=
  "Template " ++ String.singleton (Char.ofNat 39) ++ template_name ++
    String.singleton (Char.ofNat 39) ++ " not found"

/-- The `(success, message, output_path)` tuple returned by `generate_meme`,
extended with the produced artifact: the base image together with the draw
calls burned into it (`none` when no image was produced). -/
structure GenResult where
  success : Bool
  message : String
  output_path : Option String
  draws : Option (Img × List DrawCall)
deriving DecidableEq

/-- `MemeService.generate_meme` (meme_service.py lines 41-123): default the
style via Python `or`, look the template up in the store, load it, draw the
top caption when `top_text` is truthy and the bottom caption when
`bottom_text` is truthy, and save under a generated unique filename (saving
modelled as succeeding; `get_font` abstracts `get_font(font_size)` and
`mk_filename` abstracts `_generate_filename`). -/
def generate_meme (store : String → Option (Option Img)) (get_font : Nat → Font)
    (mk_filename : String → String) (template_name top_text : String)
    (bottom_text : Option String := none) (font_size : Option Nat := none)
    (font_color : Option String := none) (stroke_color : Option String := none)
    (stroke_width : Option Nat := none) : GenResult :=
  let style := effectiveStyle font_size font_color stroke_color stroke_width
  match store template_name with
  | none =>
    { success := false, message := notFoundMessage template_name
      output_path := none, draws := none }
  | some none =>
    { success := false, message := "Failed to load template image"
      output_path := none, draws := none }
  | some (some img) =>
    let font := get_font style.font_size
    let topCalls :=
      if top_text = "" then []
      else add_text_to_image font (img.width, img.height) top_text
        style.font_color style.stroke_color style.stroke_width "top"
    let botCalls :=
      match bottom_text with
      | none => []
      | some bt =>
        if bt = "" then []
        else add_text_to_image font (img.width, img.height) bt
          style.font_color style.stroke_color style.stroke_width "bottom"
    { success := true, message := "Meme generated successfully"
      output_path := some (mk_filename template_name)
      draws := some (img, topCalls ++ botCalls) }

/-- The draw calls recorded in a result (empty when no image was produced). -/
def resultCalls (r : GenResult) : List DrawCall :=
  match r.draws with
  | none => []
  | some (_, cs) => cs

/-! ## Lemmas about the wrapping loop -/

/-- Flattening the lines produced by the loop recovers the closed lines, the
open line, and the unprocessed words, in order. -/
lemma wrapAux_flatten (measure : String → Nat) (max_width : Nat) :
    ∀ (ws : List String) (lines : List (List String)) (current_line : List String),
      (wrapAux measure max_width ws lines current_line).flatten =
        lines.flatten ++ current_line ++ ws := by
  intro ws
  induction ws with
  | nil =>
    intro lines cur
    cases cur with
    | nil => simp [wrapAux]
    | cons a t => simp [wrapAux]
  | cons w ws ih =>
    intro lines cur
    cases cur with
    | nil =>
      by_cases h1 : measure (joinWords [w]) ≤ max_width
      · simp [wrapAux, h1, ih]
      · simp [wrapAux, h1, ih]
    | cons a t =>
      by_cases h1 : measure (joinWords (a :: (t ++ [w]))) ≤ max_width
      · simp [wrapAux, h1, ih]
      · simp [wrapAux, h1, ih]

/-- Every line the loop has closed, and will close, that holds more than one
word was measured against the budget when its last word was committed. -/
lemma wrapAux_budget (measure : String → Nat) (max_width : Nat) :
    ∀ (ws : List String) (lines : List (List String)) (cur : List String),
      (∀ l ∈ lines, 1 < l.length → measure (joinWords l) ≤ max_width) →
      (1 < cur.length → measure (joinWords cur) ≤ max_width) →
      ∀ l ∈ wrapAux measure max_width ws lines cur,
        1 < l.length → measure (joinWords l) ≤ max_width := by
  intro ws
  induction ws with
  | nil =>
    intro lines cur hlines hcur l hl
    cases cur with
    | nil =>
      simp only [wrapAux, List.isEmpty_nil, if_true] at hl
      exact hlines l hl
    | cons a t =>
      simp only [wrapAux, List.isEmpty_cons, Bool.false_eq_true, if_false,
        List.mem_append, List.mem_singleton] at hl
      rcases hl with hl | rfl
      · exact hlines l hl
      · exact hcur
  | cons w ws ih =>
    intro lines cur hlines hcur l hl
    cases cur with
    | nil =>
      simp only [wrapAux, List.nil_append] at hl
      by_cases h1 : measure (joinWords [w]) ≤ max_width
      · rw [if_pos h1] at hl
        refine ih lines [w] hlines ?_ l hl
        intro hlen
        simp at hlen
      · rw [if_neg h1, if_pos List.isEmpty_nil] at hl
        refine ih (lines ++ [[w]]) [] ?_ (by simp) l hl
        intro l' hl'
        rcases List.mem_append.mp hl' with h | h
        · exact hlines l' h
        · intro hlen
          rw [List.mem_singleton.mp h] at hlen
          simp at hlen
    | cons a t =>
      simp only [wrapAux] at hl
      by_cases h1 : measure (joinWords (a :: t ++ [w])) ≤ max_width
      · rw [if_pos h1] at hl
        exact ih lines (a :: t ++ [w]) hlines (fun _ => h1) l hl
      · rw [if_neg h1, if_neg (by simp)] at hl
        refine ih (lines ++ [a :: t]) [w] ?_ (by simp) l hl
        intro l' hl'
        rcases List.mem_append.mp hl' with h | h
        · exact hlines l' h
        · rw [List.mem_singleton.mp h]
          exact hcur


/-- A line the loop has already closed stays in the output. -/
lemma mem_wrapAux_of_mem_lines (measure : String → Nat) (max_width : Nat) :
    ∀ (ws : List String) (lines : List (List String)) (cur : List String)
      (l : List String), l ∈ lines → l ∈ wrapAux measure max_width ws lines cur := by
  intro ws
  induction ws with
  | nil =>
    intro lines cur l hl
    cases cur with
    | nil => simpa [wrapAux] using hl
    | cons a t =>
      simp only [wrapAux, List.isEmpty_cons, Bool.false_eq_true, if_false]
      exact List.mem_append_left _ hl
  | cons w ws ih =>
    intro lines cur l hl
    cases cur with
    | nil =>
      simp only [wrapAux, List.nil_append]
      by_cases h1 : measure (joinWords [w]) ≤ max_width
      · rw [if_pos h1]
        exact ih lines [w] l hl
      · rw [if_neg h1, if_pos List.isEmpty_nil]
        exact ih (lines ++ [[w]]) [] l (List.mem_append_left _ hl)
    | cons a t =>
      simp only [wrapAux]
      by_cases h1 : measure (joinWords (a :: t ++ [w])) ≤ max_width
      · rw [if_pos h1]
        exact ih lines (a :: t ++ [w]) l hl
      · rw [if_neg h1, if_neg (by simp)]
        exact ih (lines ++ [a :: t]) [w] l (List.mem_append_left _ hl)

/-- Once an oversized word is alone on the open line, it ends up alone in the
output: no later word can join it, since the candidate line containing it
would measure at least as wide as the word itself. -/
lemma oversized_open_line_mem (measure : String → Nat) (max_width : Nat) (w : String)
    (hmono : ∀ (l : List String), ∀ w2 ∈ l, measure w2 ≤ measure (joinWords l))
    (hbig : max_width < measure w) :
    ∀ (ws : List String) (lines : List (List String)),
      [w] ∈ wrapAux measure max_width ws lines [w] := by
  intro ws
  induction ws with
  | nil =>
    intro lines
    simp only [wrapAux, List.isEmpty_cons, Bool.false_eq_true, if_false]
    exact List.mem_append_right _ (List.mem_singleton.mpr rfl)
  | cons w2 ws ih =>
    intro lines
    have h1 : ¬ measure (joinWords (w :: [] ++ [w2])) ≤ max_width := by
      have h := hmono (w :: [] ++ [w2]) w (by simp)
      omega
    simp only [wrapAux]
    rw [if_neg h1, if_neg (by simp)]
    exact mem_wrapAux_of_mem_lines measure max_width ws (lines ++ [[w]]) [w2] [w]
      (List.mem_append_right _ (List.mem_singleton.mpr rfl))

/-- A word of the input that measures over the budget is emitted as a
singleton line no matter the loop state (the open line is never extended with
it, and once it opens a line of its own that line is closed as a singleton). -/
lemma oversized_word_own_line (measure : String → Nat) (max_width : Nat)
    (hmono : ∀ (l : List String), ∀ w2 ∈ l, measure w2 ≤ measure (joinWords l)) :
    ∀ (ws : List String) (lines : List (List String)) (cur : List String)
      (w : String), w ∈ ws → max_width < measure w →
      [w] ∈ wrapAux measure max_width ws lines cur := by
  intro ws
  induction ws with
  | nil =>
    intro lines cur w hw
    simp at hw
  | cons w2 ws ih =>
    intro lines cur w hw hbig
    rcases List.mem_cons.mp hw with rfl | hmem
    · cases cur with
      | nil =>
        have h1 : ¬ measure (joinWords [w]) ≤ max_width := by
          have h := hmono [w] w (by simp)
          omega
        simp only [wrapAux, List.nil_append]
        rw [if_neg h1, if_pos List.isEmpty_nil]
        exact mem_wrapAux_of_mem_lines measure max_width ws (lines ++ [[w]]) [] [w]
          (List.mem_append_right _ (List.mem_singleton.mpr rfl))
      | cons a t =>
        have h1 : ¬ measure (joinWords (a :: t ++ [w])) ≤ max_width := by
          have h := hmono (a :: t ++ [w]) w (by simp)
          omega
        simp only [wrapAux]
        rw [if_neg h1, if_neg (by simp)]
        exact oversized_open_line_mem measure max_width w hmono hbig ws (lines ++ [a :: t])
    · cases cur with
      | nil =>
        simp only [wrapAux, List.nil_append]
        by_cases h1 : measure (joinWords [w2]) ≤ max_width
        · rw [if_pos h1]
          exact ih lines [w2] w hmem hbig
        · rw [if_neg h1, if_pos List.isEmpty_nil]
          exact ih (lines ++ [[w2]]) [] w hmem hbig
      | cons a t =>
        simp only [wrapAux]
        by_cases h1 : measure (joinWords (a :: t ++ [w2])) ≤ max_width
        · rw [if_pos h1]
          exact ih lines (a :: t ++ [w2]) w hmem hbig
        · rw [if_neg h1, if_neg (by simp)]
          exact ih (lines ++ [a :: t]) [w2] w hmem hbig

/-- One step of the bound: a word is never longer than the space-join of a
word list it heads, and the join of the tail is no longer than the whole. -/
lemma le_length_joinWords_cons (a : String) (t : List String) :
    a.length ≤ (joinWords (a :: t)).length ∧
      (joinWords t).length ≤ (joinWords (a :: t)).length := by
  cases t with
  | nil => simp [joinWords]
  | cons b t2 =>
    simp only [joinWords, String.length_append]
    constructor <;> omega

/-- Character count is a width measure that is monotone under joining into a
line: a member word is no longer than the joined line. -/
lemma length_le_joinWords (l : List String) :
    ∀ w ∈ l, w.length ≤ (joinWords l).length := by
  induction l with
  | nil =>
    intro w hw
    simp at hw
  | cons a t ih =>
    intro w hw
    rcases List.mem_cons.mp hw with rfl | h
    · exact (le_length_joinWords_cons w t).1
    · exact le_trans (ih w h) (le_length_joinWords_cons a t).2

/-- C1: for every width measure, input text and positive max width, the lines
returned by `wrap_text` are the space-joins of the word lists produced by the
wrapping loop, the concatenation in order of those word lists equals the word
sequence of the input text (Python `text.split()`), and empty input text
yields an empty sequence of lines: wrapping never drops, reorders or
duplicates words. -/
theorem wrap_text_coverage (measure : String → Nat) (text : String) (max_width : Nat)
    (hpos : 0 < max_width) :
    wrap_text measure text max_width =
        (wrapLines measure (splitWords text) max_width).map joinWords ∧
      (wrapLines measure (splitWords text) max_width).flatten = splitWords text ∧
      (text = "" → wrap_text measure text max_width = []) := by
  refine ⟨rfl, ?_, ?_⟩
  · rw [wrapLines, wrapAux_flatten]
    simp
  · rintro rfl
    rfl

/-- Witness for C1 at measure = character count, text `"a b"`, max width 1. -/
theorem wrap_text_coverage_witness :
    0 < 1 ∧
      (wrap_text String.length "a b" 1 =
          (wrapLines String.length (splitWords "a b") 1).map joinWords ∧
        (wrapLines String.length (splitWords "a b") 1).flatten = splitWords "a b" ∧
        ("a b" = "" → wrap_text String.length "a b" 1 = [])) :=
  ⟨by decide, wrap_text_coverage String.length "a b" 1 (by decide)⟩

/-- C2: for every width measure that is monotone under joining words into a
line (as a font bounding-box width is), every line of word count above one
returned by the wrap loop measures within the budget, and a single word whose
own measured width exceeds the budget is emitted as its own line unmodified. -/
theorem wrap_text_budget (measure : String → Nat) (ws : List String) (max_width : Nat)
    (hmono : ∀ (l : List String), ∀ w ∈ l, measure w ≤ measure (joinWords l)) :
    (∀ l ∈ wrapLines measure ws max_width, 1 < l.length →
        measure (joinWords l) ≤ max_width) ∧
      (∀ w ∈ ws, max_width < measure w → [w] ∈ wrapLines measure ws max_width) := by
  constructor
  · exact wrapAux_budget measure max_width ws [] [] (by simp) (by simp)
  · intro w hw hbig
    exact oversized_word_own_line measure max_width hmono ws [] [] w hw hbig

/-- Witness for C2 at measure = character count, budget 12: `"hello world"`
fits on one two-word line, and the 34-character word is emitted alone. -/
theorem wrap_text_budget_witness :
    (∀ l ∈ wrapLines String.length
          ["hello", "world", "supercalifragilisticexpialidocious"] 12,
        1 < l.length → String.length (joinWords l) ≤ 12) ∧
      (∀ w ∈ ["hello", "world", "supercalifragilisticexpialidocious"],
        12 < String.length w →
          [w] ∈ wrapLines String.length
            ["hello", "world", "supercalifragilisticexpialidocious"] 12) :=
  wrap_text_budget String.length
    ["hello", "world", "supercalifragilisticexpialidocious"] 12
    (fun l => length_le_joinWords l)

/-- The open line is committed in full when every candidate line tested from
it fits the budget: the loop just keeps appending. -/
lemma wrapAux_all_fit (measure : String → Nat) (max_width : Nat) :
    ∀ (ws cur : List String) (lines : List (List String)), cur ≠ [] →
      (∀ i, measure (joinWords (cur ++ ws.take i)) ≤ max_width) →
      wrapAux measure max_width ws lines cur = lines ++ [cur ++ ws] := by
  intro ws
  induction ws with
  | nil =>
    intro cur lines hne _
    cases cur with
    | nil => exact absurd rfl hne
    | cons a t => simp [wrapAux]
  | cons w ws ih =>
    intro cur lines hne hfit
    have h1 : measure (joinWords (cur ++ [w])) ≤ max_width := by
      have h := hfit 1
      simpa only [show (w :: ws).take 1 = [w] from rfl] using h
    have h2 : ∀ i, measure (joinWords ((cur ++ [w]) ++ ws.take i)) ≤ max_width := by
      intro i
      have h := hfit (i + 1)
      simpa only [show (w :: ws).take (i + 1) = w :: ws.take i from rfl,
        List.append_assoc, List.singleton_append] using h
    cases cur with
    | nil => exact absurd rfl hne
    | cons a t =>
      simp only [wrapAux]
      rw [if_pos h1, ih (a :: t ++ [w]) lines (by simp) h2]
      simp

/-- The font of the C3 scenario: `"HELLO WORLD"` measures 600 px and its
prefix `"HELLO"` no wider (300 px). -/
def fontC3 : Font :=
  { width := fun s => if s = "HELLO WORLD" then 600 else if s = "HELLO" then 300 else 0
    heightA := 30 }

/-- C3: on a 1000 by 1000 image with caption `"hello world"` under a font
measuring `"HELLO WORLD"` at 600 px (prefixes no wider), the wrap step of
`_add_text_to_image` (budget 900 = 90% of 1000) returns the single line
`"HELLO WORLD"`, the top-slot vertical start is 50, and the horizontal start
of that line is (1000 - 600) // 2 = 200. -/
theorem concrete_scenario_layout :
    textLayout fontC3 (1000, 1000) "hello world" "top" =
      { lines := ["HELLO WORLD"], total_height := 30, yStart := 50, xs := [200] } := by
  decide

/-- The font of the C4 counterexample: every string measures 0 px wide and the
probe line height is 19. -/
def fontC4 : Font :=
  { width := fun _ => 0, heightA := 19 }

/-- C4 counterexample: on a 20 px tall image, the caption "a" wraps to one
line of block height 19 < 20, yet the top-slot start `int(0.05 * 20) = 1` is
not strictly less than the bottom-slot start `int(0.95 * 20 - 19) = 0`. -/
theorem top_vs_bottom_cex :
    (textLayout fontC4 (20, 20) "a" "top").total_height = 19 ∧
      (19 : Nat) < 20 ∧
      ¬ ((textLayout fontC4 (20, 20) "a" "top").yStart <
          (textLayout fontC4 (20, 20) "a" "bottom").yStart) := by
  refine ⟨by decide, by decide, by decide⟩

/-- C4 (amended): the top-slot vertical start is strictly less than the
bottom-slot vertical start whenever the block height is at most 90% of the
image height minus one pixel (10 * block + 10 ≤ 9 * height). -/
theorem top_lt_bottom_amended (img_height total_height : Nat)
    (h : 10 * total_height + 10 ≤ 9 * img_height) :
    y_start "top" img_height total_height <
      y_start "bottom" img_height total_height := by
  unfold y_start
  rw [if_pos rfl, if_neg (by decide)]
  rw [Int.tdiv_eq_ediv (by positivity) (by norm_num),
    Int.tdiv_eq_ediv (by omega) (by norm_num)]
  omega

/-- Witness for C4 (amended) at image height 100, block height 80. -/
theorem top_lt_bottom_amended_witness :
    10 * 80 + 10 ≤ 9 * 100 ∧ y_start "top" 100 80 < y_start "bottom" 100 80 :=
  ⟨by decide, top_lt_bottom_amended 100 80 (by decide)⟩

/-- The width measure under which every string measures 0 px. -/
def measureZero : String → Nat := fun _ => 0

/-- C5 counterexample: the empty text measures within any budget (width 0),
yet the wrap step returns no lines at all rather than exactly one line equal
to the upper-cased input. -/
theorem wrap_short_cex :
    measureZero (upperStr "") ≤ 900 ∧
      wrap_text measureZero (upperStr "") 900 = [] ∧
      ([] : List String) ≠ [upperStr ""] := by
  refine ⟨by decide, by decide, by decide⟩

/-- C5 (amended): for every text whose upper-cased form has a nonempty word
sequence and is whitespace-normalized (equal to the space-join of its words),
and every width measure monotone along prefixes of that word sequence, if the
upper-cased text measures within the budget then the wrap step returns exactly
one line equal to the upper-cased input. -/
theorem wrap_short_amended (measure : String → Nat) (text : String) (max_width : Nat)
    (hne : splitWords (upperStr text) ≠ [])
    (hnorm : joinWords (splitWords (upperStr text)) = upperStr text)
    (hmono : ∀ i, measure (joinWords ((splitWords (upperStr text)).take i)) ≤
        measure (upperStr text))
    (hfit : measure (upperStr text) ≤ max_width) :
    wrap_text measure (upperStr text) max_width = [upperStr text] := by
  have key : wrapLines measure (splitWords (upperStr text)) max_width =
      [splitWords (upperStr text)] := by
    rcases hws : splitWords (upperStr text) with _ | ⟨w, rest⟩
    · exact absurd hws hne
    · rw [hws] at hmono
      have h1 : measure (joinWords ([] ++ [w])) ≤ max_width := by
        have h := le_trans (hmono 1) hfit
        simpa only [show (w :: rest).take 1 = [w] from rfl, List.nil_append] using h
      have h2 : ∀ i, measure (joinWords (([] ++ [w]) ++ rest.take i)) ≤ max_width := by
        intro i
        have h := le_trans (hmono (i + 1)) hfit
        simpa only [show (w :: rest).take (i + 1) = w :: rest.take i from rfl,
          List.nil_append, List.singleton_append] using h
      unfold wrapLines
      simp only [wrapAux]
      rw [if_pos h1, wrapAux_all_fit measure max_width rest ([] ++ [w]) [] (by simp) h2]
      simp
  calc wrap_text measure (upperStr text) max_width
      = (wrapLines measure (splitWords (upperStr text)) max_width).map joinWords := rfl
    _ = [joinWords (splitWords (upperStr text))] := by rw [key]; rfl
    _ = [upperStr text] := by rw [hnorm]

/-- Witness for C5 (amended) at the all-zero width measure, text `"hi"`,
budget 900. -/
theorem wrap_short_amended_witness :
    splitWords (upperStr "hi") ≠ [] ∧
      joinWords (splitWords (upperStr "hi")) = upperStr "hi" ∧
      wrap_text measureZero (upperStr "hi") 900 = [upperStr "hi"] :=
  ⟨by decide, by decide,
    wrap_short_amended measureZero "hi" 900 (by decide) (by decide)
      (fun _ => Nat.le_refl 0) (Nat.zero_le 900)⟩

/-- C6: every drawn line is independently centered within half a pixel: with
`x = (img_width - text_width) // 2` (floored to an integer pixel), the line
center `x + text_width / 2` differs from the image center `img_width / 2` by
at most 1/2. -/
theorem line_centering (img_width text_width : Nat) :
    |((centerX img_width text_width : ℚ) + (text_width : ℚ) / 2) -
        (img_width : ℚ) / 2| ≤ 1 / 2 := by
  have hx : 2 * centerX img_width text_width ≤ (img_width : Int) - (text_width : Int) ∧
      (img_width : Int) - (text_width : Int) ≤ 2 * centerX img_width text_width + 1 := by
    unfold centerX
    rw [Int.fdiv_eq_ediv _ (by norm_num)]
    omega
  have h1 : ((img_width : ℚ) - (text_width : ℚ)) ≤
      2 * ((centerX img_width text_width : Int) : ℚ) + 1 := by
    exact_mod_cast hx.2
  have h2 : 2 * ((centerX img_width text_width : Int) : ℚ) ≤
      (img_width : ℚ) - (text_width : ℚ) := by
    exact_mod_cast hx.1
  rw [abs_le]
  constructor
  · linarith
  · linarith

/-- C7: for every template name for which the store holds no file,
`generate_meme` returns a non-success result whose message identifies the
template as not found, with a null output path and no output artifact. -/
theorem unknown_template (store : String → Option (Option Img)) (get_font : Nat → Font)
    (mk_filename : String → String) (template_name top_text : String)
    (bottom_text : Option String) (font_size : Option Nat)
    (font_color stroke_color : Option String) (stroke_width : Option Nat)
    (h : store template_name = none) :
    generate_meme store get_font mk_filename template_name top_text bottom_text
        font_size font_color stroke_color stroke_width =
      { success := false, message := notFoundMessage template_name
        output_path := none, draws := none } := by
  simp only [generate_meme, h]

/-- Witness for C7 at an empty store and template name `"missing"`. -/
theorem unknown_template_witness :
    (fun _ : String => (none : Option (Option Img))) "missing" = none ∧
      generate_meme (fun _ => none) (fun _ => { width := fun _ => 0, heightA := 10 })
          (fun n => n) "missing" "hello" none none none none none =
        { success := false, message := notFoundMessage "missing"
          output_path := none, draws := none } :=
  ⟨rfl, unknown_template (fun _ => none) (fun _ => { width := fun _ => 0, heightA := 10 })
    (fun n => n) "missing" "hello" none none none none none rfl⟩

/-- Every draw call issued by `_add_text_to_image` carries exactly the stroke
width and fill color it was given. -/
lemma add_text_to_image_fields (font : Font) (image_size : Nat × Nat) (text : String)
    (font_color stroke_color : String) (stroke_width : Nat) (position : String) :
    ∀ c ∈ add_text_to_image font image_size text font_color stroke_color
        stroke_width position,
      c.stroke_width = stroke_width ∧ c.fill = font_color := by
  intro c hc
  simp only [add_text_to_image, List.mem_map] at hc
  obtain ⟨p, _, rfl⟩ := hc
  exact ⟨rfl, rfl⟩

/-- The store holding one 100 by 100 template for every name. -/
def storeOne : String → Option (Option Img) :=
  fun _ => some (some { width := 100, height := 100 })

/-- The font resolver returning a font of zero string widths and line height
10 at every size. -/
def fontTen : Nat → Font :=
  fun _ => { width := fun _ => 0, heightA := 10 }

/-- C8 counterexample: calling `generate_meme` with stroke width 0 issues a
draw call with stroke width 2, not 0 — the falsy-`or` defaulting replaces a
supplied 0 with the configured default. -/
theorem stroke_zero_cex :
    resultCalls (generate_meme storeOne fontTen (fun n => n) "t" "a"
        none none none none (some 0)) =
      [{ x := 50, y := 5, line := "A", fill := "white", stroke_width := 2,
          stroke_fill := "black" }] ∧
      (2 : Nat) ≠ 0 := by
  refine ⟨by decide, by decide⟩

/-- C8 (amended): when `generate_meme` is called with stroke width 0, the
defaulting `stroke_width or settings.default_stroke_width` treats 0 as absent,
so every line is drawn with the default stroke width 2; the supplied
(nonempty) fill color is still used as given. -/
theorem stroke_zero_amended (store : String → Option (Option Img))
    (get_font : Nat → Font) (mk_filename : String → String)
    (template_name top_text : String) (bottom_text : Option String)
    (font_size : Option Nat) (font_color : String) (stroke_color : Option String)
    (hfc : font_color ≠ "") :
    ∀ c ∈ resultCalls (generate_meme store get_font mk_filename template_name
        top_text bottom_text font_size (some font_color) stroke_color (some 0)),
      c.stroke_width = settings.default_stroke_width ∧ c.fill = font_color := by
  intro c hc
  have hsw : (effectiveStyle font_size (some font_color) stroke_color
      (some 0)).stroke_width = settings.default_stroke_width := rfl
  have hfc2 : (effectiveStyle font_size (some font_color) stroke_color
      (some 0)).font_color = font_color := by
    simp [effectiveStyle, pyOrStr, hfc]
  cases hst : store template_name with
  | none =>
    simp only [generate_meme, hst, resultCalls] at hc
    simp at hc
  | some o =>
    cases o with
    | none =>
      simp only [generate_meme, hst, resultCalls] at hc
      simp at hc
    | some img =>
      cases bottom_text with
      | none =>
        simp only [generate_meme, hst, resultCalls] at hc
        rcases List.mem_append.mp hc with h | h
        · by_cases ht : top_text = ""
          · rw [if_pos ht] at h
            simp at h
          · rw [if_neg ht] at h
            have hf := add_text_to_image_fields _ _ _ _ _ _ _ c h
            exact ⟨hf.1.trans hsw, hf.2.trans hfc2⟩
        · simp at h
      | some bt =>
        simp only [generate_meme, hst, resultCalls] at hc
        rcases List.mem_append.mp hc with h | h
        · by_cases ht : top_text = ""
          · rw [if_pos ht] at h
            simp at h
          · rw [if_neg ht] at h
            have hf := add_text_to_image_fields _ _ _ _ _ _ _ c h
            exact ⟨hf.1.trans hsw, hf.2.trans hfc2⟩
        · by_cases hb : bt = ""
          · rw [if_pos hb] at h
            simp at h
          · rw [if_neg hb] at h
            have hf := add_text_to_image_fields _ _ _ _ _ _ _ c h
            exact ⟨hf.1.trans hsw, hf.2.trans hfc2⟩

/-- Witness for C8 (amended) at a one-template store, caption "a", fill color
"red", stroke width 0. -/
theorem stroke_zero_amended_witness :
    ("red" : String) ≠ "" ∧
      ∀ c ∈ resultCalls (generate_meme storeOne fontTen (fun n => n) "t" "a"
          none none (some "red") none (some 0)),
        c.stroke_width = settings.default_stroke_width ∧ c.fill = "red" :=
  ⟨by decide, stroke_zero_amended storeOne fontTen (fun n => n) "t" "a"
    none none "red" none (by decide)⟩

/-- C9: calling `generate_meme` with all style parameters omitted resolves
them to the documented defaults (font size 40, fill "white", outline "black",
outline width 2) and, when the template exists and decodes, proceeds without
error. -/
theorem style_defaulting (store : String → Option (Option Img)) (get_font : Nat → Font)
    (mk_filename : String → String) (template_name top_text : String)
    (bottom_text : Option String) (img : Img)
    (h : store template_name = some (some img)) :
    effectiveStyle none none none none =
        { font_size := 40, font_color := "white", stroke_color := "black",
          stroke_width := 2 } ∧
      (generate_meme store get_font mk_filename template_name top_text bottom_text
          none none none none).success = true ∧
      (generate_meme store get_font mk_filename template_name top_text bottom_text
          none none none none).message = "Meme generated successfully" := by
  refine ⟨rfl, ?_, ?_⟩ <;> simp [generate_meme, h]

/-- Witness for C9 at a one-template store. -/
theorem style_defaulting_witness :
    storeOne "t" = some (some { width := 100, height := 100 }) ∧
      (effectiveStyle none none none none =
          { font_size := 40, font_color := "white", stroke_color := "black",
            stroke_width := 2 } ∧
        (generate_meme storeOne fontTen (fun n => n) "t" "hello" none
            none none none none).success = true ∧
        (generate_meme storeOne fontTen (fun n => n) "t" "hello" none
            none none none none).message = "Meme generated successfully") :=
  ⟨rfl, style_defaulting storeOne fontTen (fun n => n) "t" "hello" none
    { width := 100, height := 100 } rfl⟩

/-- C10: for every template that exists and decodes, calling `generate_meme`
with empty top text and absent (or empty) bottom text succeeds while skipping
both drawing branches: the saved artifact is the loaded image with no draw
calls at all. -/
theorem empty_captions_identity (store : String → Option (Option Img))
    (get_font : Nat → Font) (mk_filename : String → String)
    (template_name : String) (img : Img) (bottom_text : Option String)
    (font_size : Option Nat) (font_color stroke_color : Option String)
    (stroke_width : Option Nat)
    (h : store template_name = some (some img))
    (hb : bottom_text = none ∨ bottom_text = some "") :
    generate_meme store get_font mk_filename template_name "" bottom_text
        font_size font_color stroke_color stroke_width =
      { success := true, message := "Meme generated successfully"
        output_path := some (mk_filename template_name)
        draws := some (img, []) } := by
  rcases hb with rfl | rfl <;> simp [generate_meme, h]

/-- Witness for C10 at a one-template store, empty top text, empty-string
bottom text. -/
theorem empty_captions_identity_witness :
    storeOne "t" = some (some { width := 100, height := 100 }) ∧
      ((some "" : Option String) = none ∨ (some "" : Option String) = some "") ∧
      generate_meme storeOne fontTen (fun n => n) "t" "" (some "")
          none none none none =
        { success := true, message := "Meme generated successfully"
          output_path := some "t"
          draws := some ({ width := 100, height := 100 }, []) } :=
  ⟨rfl, Or.inr rfl,
    empty_captions_identity storeOne fontTen (fun n => n) "t"
      { width := 100, height := 100 } (some "") none none none none rfl (Or.inr rfl)⟩

end MemeGen
